import Mathlib

/-
  Shallow embedding of the dues subsystem of ACP_Gestion (src/app2.py):
  due generation (`cuotas` POST handler), payment (`pagar_cuota`),
  reversal (`revertir_pago`) and delinquency aggregation (`morosidad`),
  together with the data model rows they touch (Socio, Cuota, Movimiento,
  Comprobante).

  Modelling conventions:
  * Monetary amounts (`Float` columns in the source) are modelled as `ℚ`;
    the claims under study are relational/algebraic and do not depend on
    floating-point rounding.
  * Python `datetime.date` values are modelled as year/month/day triples
    with the same lexicographic comparison that Python uses.
  * The database session is modelled as an explicit `DB` record of row
    lists plus autoincrement counters; each HTTP handler becomes a
    function from `DB` to `Option` (or `Except`-like) results, `none`
    standing for a request aborted by a 404 or an uncaught exception,
    in which case nothing was committed.
  * `date.today()` is passed in as an explicit `hoy` parameter.
  * Columns never touched by this subsystem (Socio.email/dni/telefono/
    fecha_alta, Cuota.nota, Movimiento.comp_tipo/comp_nro/stockmov_id/
    subcomision_id/categoria_id, Comprobante.uploaded_at) are omitted;
    the handlers leave them at their defaults.
  * `werkzeug.secure_filename` is modelled as the identity on the file
    name; no claim depends on the sanitisation it performs.
-/

namespace ACP

/-- Python `datetime.date`, compared lexicographically by (year, month, day). -/
structure Fecha where
  y : Nat
  m : Nat
  d : Nat
deriving DecidableEq, Repr

/-- Python `date` comparison `a < b` (lexicographic on year, month, day). -/
def Fecha.before (a b : Fecha) : Bool :=
  decide (a.y < b.y ∨ (a.y = b.y ∧ (a.m < b.m ∨ (a.m = b.m ∧ a.d < b.d))))

/-- Embeds `esBisiesto y`: the Gregorian leap-year rule used by `calendar.monthrange`. -/
def esBisiesto (y : Nat) : Bool :=
  (y % 4 == 0 && y % 100 != 0) || y % 400 == 0

/-- Embeds `ultimo_dia_mes(y, m) = monthrange(y, m)[1]`: number of days in the month. -/
def ultimo_dia_mes (y m : Nat) : Nat :=
  if m = 2 then (if esBisiesto y then 29 else 28)
  else if m = 4 ∨ m = 6 ∨ m = 9 ∨ m = 11 then 30
  else 31

/-- Embeds `ALLOWED_EXTS = {'pdf', 'jpg', 'jpeg', 'png'}` -/
def ALLOWED_EXTS : List String := ["pdf", "jpg", "jpeg", "png"]

/-- Python `str.split(sep)` on a single-character separator, on the character
list of the string: splitting the empty string gives `[""]`, and adjacent
separators produce empty fragments, as in Python. -/
def splitChars (sep : Char) : List Char → List (List Char)
  | [] => [[]]
  | c :: cs =>
    match splitChars sep cs, decide (c = sep) with
    | r, true => [] :: r
    | [], false => [[c]]
    | h :: t, false => (c :: h) :: t

/-- Embeds `allowed_file(fn)`: `'.' in fn and fn.rsplit('.', 1)[1].lower() in ALLOWED_EXTS`.
`fn.rsplit('.', 1)[1]` is the part after the last dot, i.e. the last component
of the split on `'.'`; `'.' in fn` holds iff that split has at least two
components. `.lower()` is modelled on ASCII letters, which covers the
extensions compared against. -/
def allowed_file (fn : String) : Bool :=
  let parts := splitChars '.' fn.data
  decide (2 ≤ parts.length) &&
    decide (String.mk ((parts.getLastD []).map Char.toLower) ∈ ALLOWED_EXTS)

/-- Row of table `socio` (fields used by the dues subsystem). -/
structure Socio where
  id : Nat
  nombre : String
  activo : Bool
  cuota_mensual : ℚ
deriving DecidableEq, Repr

/-- Row of table `cuota` (a due). -/
structure Cuota where
  id : Nat
  socio_id : Nat
  periodo : String
  monto : ℚ
  fecha_venc : Fecha
  pagada : Bool
  fecha_pago : Option Fecha
deriving DecidableEq, Repr

/-- Row of table `movimiento` (a ledger entry; fields used by the dues subsystem). -/
structure Movimiento where
  id : Nat
  tipo : String
  categoria : Option String
  origen : String
  socio_id : Option Nat
  cuota_id : Option Nat
  monto : ℚ
  fecha : Fecha
  descripcion : Option String
deriving DecidableEq, Repr

/-- Row of table `comprobante` (an attachment). -/
structure Comprobante where
  id : Nat
  filename : String
  mov_id : Option Nat
  cuota_id : Option Nat
deriving DecidableEq, Repr

/-- The database state seen by the dues subsystem, with autoincrement counters. -/
structure DB where
  socios : List Socio
  cuotas : List Cuota
  movimientos : List Movimiento
  comprobantes : List Comprobante
  nextCuotaId : Nat
  nextMovId : Nat
  nextCompId : Nat
deriving DecidableEq, Repr

/-- Embeds `Cuota.query.get(cuota_id)`: primary-key lookup. -/
def findCuota (db : DB) (cuota_id : Nat) : Option Cuota :=
  db.cuotas.find? (fun c => c.id == cuota_id)

/-- ASCII whitespace accepted (and stripped) by Python `int()`: horizontal
tab through carriage return (0x09-0x0D) and the space character; the
file/group/record/unit separators (0x1C-0x1F) count as `str.isspace` but are
rejected by `int()`. -/
def pyIsSpace (c : Char) : Bool :=
  (9 ≤ c.toNat && c.toNat ≤ 13) || c.toNat == 32

/-- Continuation of a Python integer literal after its first digit was read
into the accumulator: further digits, optionally grouped by single
underscores strictly between digits (PEP 515) — `'1_2'` reads as 12 while
`'_1'`, `'1_'` and `'1__2'` are rejected. -/
def pyDigitTail : Nat → List Char → Option Nat
  | n, [] => some n
  | n, '_' :: rest =>
    match rest with
    | c :: rest' => if c.isDigit then pyDigitTail (n * 10 + (c.toNat - 48)) rest' else none
    | [] => none
  | n, c :: rest => if c.isDigit then pyDigitTail (n * 10 + (c.toNat - 48)) rest else none

/-- Python `int(s)` on a fragment produced by `periodo.split('-')` (such a
fragment contains no `'-'`, so no minus sign can appear): surrounding
whitespace is stripped, an optional `'+'` sign is accepted, then a nonempty
digit string whose digits may be grouped by single underscores (PEP 515).
This is exact for ASCII text; Unicode decimal digits and Unicode whitespace,
which `int()` also accepts, are not modelled, so statements about the failure
boundary restrict themselves to ASCII period strings. -/
def parsePyInt (s : String) : Option Nat :=
  let t := ((s.data.dropWhile pyIsSpace).reverse.dropWhile pyIsSpace).reverse
  let t := match t with
    | '+' :: rest => rest
    | other => other
  match t with
  | [] => none
  | c :: rest => if c.isDigit then pyDigitTail (c.toNat - 48) rest else none

/-- Embeds `y, m = map(int, periodo.split('-'))`: exactly two fragments, each parsed
as an integer; any other shape raises an uncaught `ValueError`. -/
def periodoParse (p : String) : Option (Nat × Nat) :=
  match (splitChars '-' p.data).map (fun l => parsePyInt (String.mk l)) with
  | [some y, some m] => some (y, m)
  | _ => none

/-- The range check done by the Python `date(y, m, d)` constructor for the
dates built by the generator (the day `min 10 (ultimo_dia_mes y m)` is always
valid once the month is, so only year and month can fail). -/
def validYM (y m : Nat) : Bool :=
  decide (1 ≤ y) && decide (y ≤ 9999) && decide (1 ≤ m) && decide (m ≤ 12)

/-- Embeds `Cuota.query.filter_by(socio_id=..., periodo=...).first()` seen as a
Boolean existence check. -/
def cuotaExiste (l : List Cuota) (sid : Nat) (periodo : String) : Bool :=
  l.any (fun c => c.socio_id == sid && c.periodo == periodo)

/-- One step of the generation loop in the `cuotas` POST handler: if the member
has no due for the period yet (the ORM query autoflushes, so it sees rows added
earlier in the same loop), add a new unpaid due at the member's current amount. -/
def generaPaso (periodo : String) (venc : Fecha) (acc : Nat × DB) (s : Socio) : Nat × DB :=
  if cuotaExiste acc.2.cuotas s.id periodo then acc
  else
    (acc.1 + 1,
     { acc.2 with
        cuotas := acc.2.cuotas ++
          [{ id := acc.2.nextCuotaId, socio_id := s.id, periodo := periodo,
             monto := s.cuota_mensual, fecha_venc := venc, pagada := false,
             fecha_pago := none }]
        nextCuotaId := acc.2.nextCuotaId + 1 })

/-- POST branch of the `cuotas` route (due generation). Parses the period,
builds the due date `date(y, m, min(10, ultimo_dia_mes(y, m)))`, then creates
one due per active member with positive monthly amount not already covered.
Returns the count of dues created and the committed state; `none` models the
request dying on an uncaught parse/date error, before any row is added. -/
def cuotasPost (db : DB) (periodo : String) : Option (Nat × DB) :=
  match periodoParse periodo with
  | none => none
  | some (y, m) =>
    if validYM y m then
      let venc : Fecha := ⟨y, m, min 10 (ultimo_dia_mes y m)⟩
      let activos := db.socios.filter (fun s => s.activo && decide (0 < s.cuota_mensual))
      some (activos.foldl (generaPaso periodo venc) (0, db))
    else none

/-- Embeds `pagar_cuota(cuota_id)`: 404 when the due does not exist; otherwise mark it
paid today, post the traceability ledger entry, and, when a receipt with an
allowed extension was uploaded, store it and attach it to the due. -/
def pagarCuota (db : DB) (cuota_id : Nat) (hoy : Fecha) (comprobante : Option String) :
    Option DB :=
  match findCuota db cuota_id with
  | none => none
  | some c =>
    let cuotas' := db.cuotas.map (fun x =>
      if x.id == c.id then { x with pagada := true, fecha_pago := some hoy } else x)
    let mov : Movimiento :=
      { id := db.nextMovId, tipo := "ingreso", categoria := some "Cuotas socios",
        origen := "cuota", socio_id := some c.socio_id, cuota_id := some c.id,
        monto := c.monto, fecha := hoy,
        descripcion := some ("Cuota " ++ c.periodo ++ " socio #" ++ toString c.socio_id) }
    let adjunta : Bool := match comprobante with
      | some fn => decide (fn ≠ "") && allowed_file fn
      | none => false
    let comps' := match comprobante with
      | some fn =>
        if decide (fn ≠ "") && allowed_file fn then
          db.comprobantes ++
            [{ id := db.nextCompId,
               filename := "static/comprobantes/cuota_" ++ toString c.id ++ "_" ++ fn,
               mov_id := none, cuota_id := some c.id }]
        else db.comprobantes
      | none => db.comprobantes
    some { db with
            cuotas := cuotas'
            movimientos := db.movimientos ++ [mov]
            comprobantes := comps'
            nextMovId := db.nextMovId + 1
            nextCompId := if adjunta then db.nextCompId + 1 else db.nextCompId }

/-- Embeds `Movimiento.query.filter_by(...).order_by(Movimiento.id.desc()).first()`
on an already-filtered list: the row with the greatest id, if any. -/
def firstByIdDesc (l : List Movimiento) : Option Movimiento :=
  l.foldl (fun best m =>
    match best with
    | none => some m
    | some b => if b.id < m.id then some m else some b) none

/-- The ledger entries with origin `'cuota'` tracing back to a given due:
the candidate set inspected by `revertir_pago`. -/
def cuotaMovs (db : DB) (cuota_id : Nat) : List Movimiento :=
  db.movimientos.filter (fun m => m.cuota_id == some cuota_id && m.origen == "cuota")

/-- Embeds `revertir_pago(cuota_id)`: 404 when the due does not exist; otherwise delete
the due's attachments, delete the most recent `origen='cuota'` ledger entry for
the due together with its own attachments (tolerating that none exists), and
reset the due to unpaid with no payment date. File-system removal is
best-effort and outside the state. -/
def revertirPago (db : DB) (cuota_id : Nat) : Option DB :=
  match findCuota db cuota_id with
  | none => none
  | some c =>
    let comps1 := db.comprobantes.filter (fun x => !(x.cuota_id == some c.id))
    let cuotas' := db.cuotas.map (fun x =>
      if x.id == c.id then { x with pagada := false, fecha_pago := none } else x)
    match firstByIdDesc (cuotaMovs db c.id) with
    | some mov =>
      some { db with
              cuotas := cuotas'
              movimientos := db.movimientos.filter (fun m => !(m.id == mov.id))
              comprobantes := comps1.filter (fun x => !(x.mov_id == some mov.id)) }
    | none =>
      some { db with cuotas := cuotas', comprobantes := comps1 }

/-- The dues selected by both `morosidad` queries:
`Cuota.pagada == False, Cuota.fecha_venc < hoy`. -/
def overdueCuotas (db : DB) (hoy : Fecha) : List Cuota :=
  db.cuotas.filter (fun c => !c.pagada && c.fecha_venc.before hoy)

/-- One output row of the per-member `morosidad` query. -/
structure DeudorRow where
  socio_id : Nat
  socio_nombre : String
  deuda_total : ℚ
  cuotas_vencidas : Nat
deriving DecidableEq, Repr

/-- Embeds `ORDER BY socio.nombre ASC` on the per-member rows. -/
def nombreLe (a b : DeudorRow) : Prop :=
  a.socio_nombre ≤ b.socio_nombre

instance : DecidableRel nombreLe := fun a b =>
  inferInstanceAs (Decidable (a.socio_nombre ≤ b.socio_nombre))

instance : IsTotal DeudorRow nombreLe :=
  ⟨fun a b => le_total a.socio_nombre b.socio_nombre⟩

instance : IsTrans DeudorRow nombreLe :=
  ⟨fun _ _ _ h1 h2 => le_trans h1 h2⟩

/-- The unsorted per-member rows of the first `morosidad` query: the inner join
of `socio` with the overdue dues, grouped by `(socio.id, socio.nombre)` with
`sum(cuota.monto)` and `count(cuota.id)`; members with no overdue due produce
no row. -/
def deudorRows (db : DB) (hoy : Fecha) : List DeudorRow :=
  db.socios.filterMap (fun s =>
    let cs := (overdueCuotas db hoy).filter (fun c => c.socio_id == s.id)
    if cs.isEmpty then none
    else some { socio_id := s.id, socio_nombre := s.nombre,
                deuda_total := (cs.map (fun c => c.monto)).sum,
                cuotas_vencidas := cs.length })

/-- Embeds `morosidad`, per-member view (`deudores`), ordered by member name ascending. -/
def deudores (db : DB) (hoy : Fecha) : List DeudorRow :=
  (deudorRows db hoy).insertionSort nombreLe

/-- Embeds `month_key(fecha_venc)`: the year-month of a date. The source renders it as
the zero-padded string `YYYY-MM` (`strftime`/`to_char`); the pair `(y, m)`
carries the same information and induces the same grouping and the same
ascending order for the years at hand. -/
def monthKey (d : Fecha) : Nat × Nat := (d.y, d.m)

/-- One output row of the per-period `morosidad` query. -/
structure PeriodoRow where
  periodo : Nat × Nat
  importe : ℚ
deriving DecidableEq, Repr

/-- Embeds `ORDER BY month_key ASC` (lexicographic year-month order, matching the
string order of zero-padded `YYYY-MM` keys). -/
def claveLe (a b : Nat × Nat) : Prop :=
  a.1 < b.1 ∨ (a.1 = b.1 ∧ a.2 ≤ b.2)

instance : DecidableRel claveLe := fun a b =>
  inferInstanceAs (Decidable (a.1 < b.1 ∨ (a.1 = b.1 ∧ a.2 ≤ b.2)))

instance : IsTotal (Nat × Nat) claveLe := by
  constructor
  intro a b
  rcases Nat.lt_trichotomy a.1 b.1 with h | h | h
  · exact Or.inl (Or.inl h)
  · rcases Nat.le_total a.2 b.2 with h2 | h2
    · exact Or.inl (Or.inr ⟨h, h2⟩)
    · exact Or.inr (Or.inr ⟨h.symm, h2⟩)
  · exact Or.inr (Or.inl h)

instance : IsTrans (Nat × Nat) claveLe := by
  constructor
  rintro a b c (h | ⟨h, h2⟩) (g | ⟨g, g2⟩)
  · exact Or.inl (h.trans g)
  · exact Or.inl (g ▸ h)
  · exact Or.inl (h ▸ g)
  · exact Or.inr ⟨h.trans g, h2.trans g2⟩

/-- Embeds `morosidad`, per-period view: the overdue dues grouped by
`month_key(fecha_venc)` with `sum(monto)`, one row per key present,
ordered by key ascending. -/
def periodoRows (db : DB) (hoy : Fecha) : List PeriodoRow :=
  let od := overdueCuotas db hoy
  let keys := ((od.map (fun c => monthKey c.fecha_venc)).dedup).insertionSort claveLe
  keys.map (fun k =>
    { periodo := k,
      importe := ((od.filter (fun c => monthKey c.fecha_venc == k)).map (fun c => c.monto)).sum })

/-- Concrete fixture: one active member with monthly amount 100. -/
def anaSocio : Socio := { id := 1, nombre := "Ana", activo := true, cuota_mensual := 100 }

/-- Concrete fixture: Ana's unpaid due for period 2024-03. -/
def cuotaMarzo : Cuota :=
  { id := 1, socio_id := 1, periodo := "2024-03", monto := 100,
    fecha_venc := ⟨2024, 3, 10⟩, pagada := false, fecha_pago := none }

/-- Concrete fixture: the database holding `anaSocio` and `cuotaMarzo`. -/
def dbBase : DB :=
  { socios := [anaSocio], cuotas := [cuotaMarzo], movimientos := [], comprobantes := [],
    nextCuotaId := 2, nextMovId := 1, nextCompId := 1 }

/-- State of `cuotaMarzo` as `pagar_cuota` leaves it when run on 2024-03-05. -/
def cuotaMarzoPagada : Cuota :=
  { cuotaMarzo with pagada := true, fecha_pago := some ⟨2024, 3, 5⟩ }

/-- The ledger entry `pagar_cuota` posts for `cuotaMarzo` on 2024-03-05. -/
def movMarzo : Movimiento :=
  { id := 1, tipo := "ingreso", categoria := some "Cuotas socios", origen := "cuota",
    socio_id := some 1, cuota_id := some 1, monto := 100, fecha := ⟨2024, 3, 5⟩,
    descripcion := some "Cuota 2024-03 socio #1" }

/-- Concrete fixture: `dbBase` after paying the due on 2024-03-05 (no receipt). -/
def dbPagada : DB :=
  { socios := [anaSocio], cuotas := [cuotaMarzoPagada], movimientos := [movMarzo],
    comprobantes := [], nextCuotaId := 2, nextMovId := 2, nextCompId := 1 }

/-- A second due-payment ledger entry for the March due, as the double payment
of [C1] leaves it. -/
def movMarzo2 : Movimiento :=
  { movMarzo with id := 2, fecha := ⟨2024, 3, 6⟩ }

/-- Concrete fixture: the March due paid twice, traced by two ledger entries. -/
def dbDoble : DB :=
  { socios := [anaSocio],
    cuotas := [{ cuotaMarzo with pagada := true, fecha_pago := some ⟨2024, 3, 6⟩ }],
    movimientos := [movMarzo, movMarzo2], comprobantes := [],
    nextCuotaId := 2, nextMovId := 3, nextCompId := 1 }

/-- Modelled from the spec's words, for comparison with the code: a period
string of the canonical `YYYY-MM` form denoting a valid year-month (four
digits, a dash, two digits making a month between 01 and 12). -/
def specCanonicalPeriodo (p : String) : Bool :=
  match p.data with
  | [y1, y2, y3, y4, sep, m1, m2] =>
    y1.isDigit && y2.isDigit && y3.isDigit && y4.isDigit && decide (sep = '-') &&
      m1.isDigit && m2.isDigit &&
      (decide (1 ≤ (m1.toNat - 48) * 10 + (m2.toNat - 48)) &&
       decide ((m1.toNat - 48) * 10 + (m2.toNat - 48) ≤ 12))
  | _ => false

/-- State of `dbBase` after generating the dues of period 2024-04. -/
def cuotaAbril : Cuota := ⟨2, 1, "2024-04", 100, ⟨2024, 4, 10⟩, false, none⟩

/-- The state generated from `dbBase` for period 2024-04. -/
def dbGen : DB := { dbBase with cuotas := [cuotaMarzo, cuotaAbril], nextCuotaId := 3 }

/-- Overdue fixture: Ana owes the 2024-01 and 2024-02 dues. -/
def cuotaEnero : Cuota := ⟨3, 1, "2024-01", 100, ⟨2024, 1, 10⟩, false, none⟩

/-- Overdue fixture: the February due. -/
def cuotaFebrero : Cuota := ⟨4, 1, "2024-02", 100, ⟨2024, 2, 10⟩, false, none⟩

/-- Concrete fixture for the delinquency queries. -/
def dbMora : DB :=
  { socios := [anaSocio], cuotas := [cuotaEnero, cuotaFebrero], movimientos := [],
    comprobantes := [], nextCuotaId := 5, nextMovId := 1, nextCompId := 1 }

/-- Mutating rows through an id-preserving update commutes with the
primary-key lookup performed by `Cuota.query.get`. -/
lemma find?_map_id_preserving (l : List Cuota) (cid : Nat) (f : Cuota → Cuota)
    (hid : ∀ x, (f x).id = x.id) :
    (l.map f).find? (fun x => x.id == cid) = (l.find? (fun x => x.id == cid)).map f := by
  have hp : ((fun x : Cuota => x.id == cid) ∘ f) = (fun x : Cuota => x.id == cid) := by
    funext x
    simp [Function.comp, hid]
  rw [List.find?_map, hp]

/-- The row found by `findCuota db cid` has id `cid`. -/
lemma findCuota_id {db : DB} {cid : Nat} {c : Cuota} (h : findCuota db cid = some c) :
    c.id = cid := by
  have := List.find?_some h
  simpa using this

/-- Looking up the due after the found row `c` (and only rows sharing its id)
was rewritten by an id-preserving update `g` yields `g c`. -/
lemma findCuota_map_if (l : List Cuota) (cid : Nat) (c : Cuota) (g : Cuota → Cuota)
    (hg : ∀ x, (g x).id = x.id)
    (hfind : l.find? (fun x => x.id == cid) = some c) :
    (l.map (fun x => if x.id == c.id then g x else x)).find? (fun x => x.id == cid)
      = some (g c) := by
  rw [find?_map_id_preserving]
  · rw [hfind]
    simp
  · intro x
    by_cases hx : x.id == c.id <;> simp [hx, hg]

/-- Embeds `pagar_cuota` on an existing due, as one committed-state equation. -/
lemma pagar_unfold (db : DB) (cid : Nat) (hoy : Fecha) (r : Option String) (c : Cuota)
    (hc : findCuota db cid = some c) :
    pagarCuota db cid hoy r = some
      { db with
        cuotas := db.cuotas.map (fun x =>
          if x.id == c.id then { x with pagada := true, fecha_pago := some hoy } else x)
        movimientos := db.movimientos ++
          [{ id := db.nextMovId, tipo := "ingreso", categoria := some "Cuotas socios",
             origen := "cuota", socio_id := some c.socio_id, cuota_id := some c.id,
             monto := c.monto, fecha := hoy,
             descripcion := some ("Cuota " ++ c.periodo ++ " socio #" ++ toString c.socio_id) }]
        comprobantes :=
          match r with
          | some fn =>
            if decide (fn ≠ "") && allowed_file fn then
              db.comprobantes ++
                [{ id := db.nextCompId,
                   filename := "static/comprobantes/cuota_" ++ toString c.id ++ "_" ++ fn,
                   mov_id := none, cuota_id := some c.id }]
            else db.comprobantes
          | none => db.comprobantes
        nextMovId := db.nextMovId + 1
        nextCompId :=
          if (match r with
              | some fn => decide (fn ≠ "") && allowed_file fn
              | none => false) then db.nextCompId + 1 else db.nextCompId } := by
  unfold pagarCuota
  rw [hc]

/-- Embeds `pagar_cuota` on an existing due: existence of the committed state together
with its dues and ledger columns. -/
lemma pagar_shape (db : DB) (cid : Nat) (hoy : Fecha) (r : Option String) (c : Cuota)
    (hc : findCuota db cid = some c) :
    ∃ db1, pagarCuota db cid hoy r = some db1 ∧
      db1.cuotas = db.cuotas.map (fun x =>
        if x.id == c.id then { x with pagada := true, fecha_pago := some hoy } else x) ∧
      db1.movimientos = db.movimientos ++
        [{ id := db.nextMovId, tipo := "ingreso", categoria := some "Cuotas socios",
           origen := "cuota", socio_id := some c.socio_id, cuota_id := some c.id,
           monto := c.monto, fecha := hoy,
           descripcion := some ("Cuota " ++ c.periodo ++ " socio #" ++ toString c.socio_id) }] :=
  ⟨_, pagar_unfold db cid hoy r c hc, rfl, rfl⟩

/-- Embeds `revertir_pago` on an existing due when a due-payment ledger entry is
found, as one committed-state equation. -/
lemma revertir_unfold_some (db : DB) (cid : Nat) (c : Cuota) (m : Movimiento)
    (hc : findCuota db cid = some c)
    (hm : firstByIdDesc (cuotaMovs db c.id) = some m) :
    revertirPago db cid = some
      { db with
        cuotas := db.cuotas.map (fun x =>
          if x.id == c.id then { x with pagada := false, fecha_pago := none } else x)
        movimientos := db.movimientos.filter (fun x => !(x.id == m.id))
        comprobantes := (db.comprobantes.filter (fun x => !(x.cuota_id == some c.id))).filter
          (fun x => !(x.mov_id == some m.id)) } := by
  unfold revertirPago
  rw [hc]
  simp only [hm]

/-- Embeds `revertir_pago` on an existing due with no matching ledger entry, as one
committed-state equation: the missing entry is tolerated. -/
lemma revertir_unfold_none (db : DB) (cid : Nat) (c : Cuota)
    (hc : findCuota db cid = some c)
    (hm : firstByIdDesc (cuotaMovs db c.id) = none) :
    revertirPago db cid = some
      { db with
        cuotas := db.cuotas.map (fun x =>
          if x.id == c.id then { x with pagada := false, fecha_pago := none } else x)
        comprobantes := db.comprobantes.filter (fun x => !(x.cuota_id == some c.id)) } := by
  unfold revertirPago
  rw [hc]
  simp only [hm]

/-- Embeds `revertir_pago`, entry-found case: existence of the committed state with
its columns. -/
lemma revertir_shape_some (db : DB) (cid : Nat) (c : Cuota) (m : Movimiento)
    (hc : findCuota db cid = some c)
    (hm : firstByIdDesc (cuotaMovs db c.id) = some m) :
    ∃ db2, revertirPago db cid = some db2 ∧
      db2.cuotas = db.cuotas.map (fun x =>
        if x.id == c.id then { x with pagada := false, fecha_pago := none } else x) ∧
      db2.movimientos = db.movimientos.filter (fun x => !(x.id == m.id)) ∧
      db2.comprobantes = (db.comprobantes.filter (fun x => !(x.cuota_id == some c.id))).filter
        (fun x => !(x.mov_id == some m.id)) :=
  ⟨_, revertir_unfold_some db cid c m hc hm, rfl, rfl, rfl⟩

/-- Embeds `revertir_pago`, no-entry case: existence of the committed state with its
columns; the ledger is untouched. -/
lemma revertir_shape_none (db : DB) (cid : Nat) (c : Cuota)
    (hc : findCuota db cid = some c)
    (hm : firstByIdDesc (cuotaMovs db c.id) = none) :
    ∃ db2, revertirPago db cid = some db2 ∧
      db2.cuotas = db.cuotas.map (fun x =>
        if x.id == c.id then { x with pagada := false, fecha_pago := none } else x) ∧
      db2.movimientos = db.movimientos ∧
      db2.comprobantes = db.comprobantes.filter (fun x => !(x.cuota_id == some c.id)) :=
  ⟨_, revertir_unfold_none db cid c hc hm, rfl, rfl, rfl⟩

/-- Claim C3: For every existing due, `pagar_cuota` sets the due's paid flag to true
and its payment date to today, and appends exactly one new ledger entry with
direction `ingreso`, category `Cuotas socios` (the fixed membership-dues
label), origin `cuota` (the due-payment tag), member back-reference the due's
member, due back-reference the due's id, amount the due's amount, date today,
and description synthesized from the due's period and member id. -/
theorem pagar_marks_paid_posts_entry (db : DB) (cid : Nat) (hoy : Fecha)
    (r : Option String) (c : Cuota) (db' : DB)
    (hc : findCuota db cid = some c)
    (h : pagarCuota db cid hoy r = some db') :
    findCuota db' cid = some { c with pagada := true, fecha_pago := some hoy } ∧
    db'.movimientos = db.movimientos ++
      [{ id := db.nextMovId, tipo := "ingreso", categoria := some "Cuotas socios",
         origen := "cuota", socio_id := some c.socio_id, cuota_id := some c.id,
         monto := c.monto, fecha := hoy,
         descripcion := some ("Cuota " ++ c.periodo ++ " socio #" ++ toString c.socio_id) }] := by
  unfold pagarCuota at h
  rw [hc] at h
  simp only [Option.some.injEq] at h
  subst h
  refine ⟨?_, rfl⟩
  simp only [findCuota] at hc ⊢
  exact findCuota_map_if db.cuotas cid c
    (fun x => { x with pagada := true, fecha_pago := some hoy }) (fun _ => rfl) hc

/-- Witness for claim C3 at the concrete fixture. -/
theorem pagar_marks_paid_posts_entry_witness :
    findCuota dbBase 1 = some cuotaMarzo ∧
    pagarCuota dbBase 1 ⟨2024, 3, 5⟩ none = some dbPagada ∧
    (findCuota dbPagada 1 = some { cuotaMarzo with pagada := true, fecha_pago := some ⟨2024, 3, 5⟩ } ∧
     dbPagada.movimientos = dbBase.movimientos ++
      [{ id := dbBase.nextMovId, tipo := "ingreso", categoria := some "Cuotas socios",
         origen := "cuota", socio_id := some cuotaMarzo.socio_id, cuota_id := some cuotaMarzo.id,
         monto := cuotaMarzo.monto, fecha := ⟨2024, 3, 5⟩,
         descripcion := some ("Cuota " ++ cuotaMarzo.periodo ++ " socio #" ++ toString cuotaMarzo.socio_id) }]) :=
  ⟨by decide, by decide,
   pagar_marks_paid_posts_entry dbBase 1 ⟨2024, 3, 5⟩ none cuotaMarzo dbPagada
     (by decide) (by decide)⟩

/-- Claim C8: For every existing due and receipt payload whose file name fails the
extension allow-list, `pagar_cuota` still succeeds: the due is marked paid,
the single ledger entry is posted, and no attachment row is created — the
disallowed receipt is silently ignored. -/
theorem pagar_receipt_rechazado_ignorado (db : DB) (cid : Nat) (hoy : Fecha) (fn : String)
    (c : Cuota)
    (hext : allowed_file fn = false)
    (hc : findCuota db cid = some c) :
    ∃ db', pagarCuota db cid hoy (some fn) = some db' ∧
      db'.comprobantes = db.comprobantes ∧
      findCuota db' cid = some { c with pagada := true, fecha_pago := some hoy } ∧
      db'.movimientos = db.movimientos ++
        [{ id := db.nextMovId, tipo := "ingreso", categoria := some "Cuotas socios",
           origen := "cuota", socio_id := some c.socio_id, cuota_id := some c.id,
           monto := c.monto, fecha := hoy,
           descripcion := some ("Cuota " ++ c.periodo ++ " socio #" ++ toString c.socio_id) }] := by
  unfold pagarCuota
  rw [hc]
  refine ⟨_, rfl, ?_, ?_, rfl⟩
  · simp [hext]
  · simp only [findCuota] at hc ⊢
    exact findCuota_map_if db.cuotas cid c
      (fun x => { x with pagada := true, fecha_pago := some hoy }) (fun _ => rfl) hc

/-- Witness for claim C8 at the concrete fixture, with the rejected name `virus.exe`. -/
theorem pagar_receipt_rechazado_ignorado_witness :
    allowed_file "virus.exe" = false ∧
    findCuota dbBase 1 = some cuotaMarzo ∧
    (∃ db', pagarCuota dbBase 1 ⟨2024, 3, 5⟩ (some "virus.exe") = some db' ∧
      db'.comprobantes = dbBase.comprobantes ∧
      findCuota db' 1 = some { cuotaMarzo with pagada := true, fecha_pago := some ⟨2024, 3, 5⟩ } ∧
      db'.movimientos = dbBase.movimientos ++
        [{ id := dbBase.nextMovId, tipo := "ingreso", categoria := some "Cuotas socios",
           origen := "cuota", socio_id := some cuotaMarzo.socio_id, cuota_id := some cuotaMarzo.id,
           monto := cuotaMarzo.monto, fecha := ⟨2024, 3, 5⟩,
           descripcion := some ("Cuota " ++ cuotaMarzo.periodo ++ " socio #" ++ toString cuotaMarzo.socio_id) }]) :=
  ⟨by decide, by decide,
   pagar_receipt_rechazado_ignorado dbBase 1 ⟨2024, 3, 5⟩ "virus.exe" cuotaMarzo
     (by decide) (by decide)⟩

/-- Claim C1, amended: A second invocation of `pagar_cuota` on an already-paid due
does not fail: it succeeds again and posts one more ledger entry with the
due-payment origin for the same due — nothing enforces at most one entry per
due and no ConflictError exists. -/
theorem pagar_double_post (db : DB) (cid : Nat) (hoy : Fecha) (c : Cuota)
    (hc : findCuota db cid = some c) (_hpagada : c.pagada = true) :
    ∃ db', pagarCuota db cid hoy none = some db' ∧
      (cuotaMovs db' cid).length = (cuotaMovs db cid).length + 1 := by
  unfold pagarCuota
  rw [hc]
  refine ⟨_, rfl, ?_⟩
  unfold cuotaMovs
  simp [List.filter_append, findCuota_id hc]

/-- Witness for claim C1, amended: paying the already-paid March due again. -/
theorem pagar_double_post_witness :
    findCuota dbPagada 1 = some cuotaMarzoPagada ∧
    cuotaMarzoPagada.pagada = true ∧
    (∃ db', pagarCuota dbPagada 1 ⟨2024, 3, 6⟩ none = some db' ∧
      (cuotaMovs db' 1).length = (cuotaMovs dbPagada 1).length + 1) :=
  ⟨by decide, by decide,
   pagar_double_post dbPagada 1 ⟨2024, 3, 6⟩ cuotaMarzoPagada (by decide) (by decide)⟩

/-- Claim C1, counterexample: On a due that is already paid and already traced by
one due-payment ledger entry, a second `pagar_cuota` does not fail with any
conflict: it returns a committed state in which two ledger entries with the
due-payment origin reference the same due. -/
theorem pagar_double_post_counterexample :
    (pagarCuota dbPagada 1 ⟨2024, 3, 6⟩ none).map (fun d => (cuotaMovs d 1).length)
      = some 2 ∧ (cuotaMovs dbPagada 1).length = 1 := by
  decide

/-- The `order_by(id.desc()).first()` result is an element of the queried list. -/
lemma firstByIdDesc_mem (l : List Movimiento) (m : Movimiento)
    (h : firstByIdDesc l = some m) : m ∈ l := by
  suffices H : ∀ (l : List Movimiento) (acc : Option Movimiento) (m : Movimiento),
      l.foldl (fun best x =>
        match best with
        | none => some x
        | some b => if b.id < x.id then some x else some b) acc = some m →
      acc = some m ∨ m ∈ l by
    rcases H l none m h with h' | h'
    · exact absurd h' (by simp)
    · exact h'
  intro l
  induction l with
  | nil => intro acc m h; exact Or.inl h
  | cons a t ih =>
    intro acc m h
    rcases ih _ m h with h' | h'
    · cases acc with
      | none =>
        simp only [Option.some.injEq] at h'
        exact Or.inr (h' ▸ List.mem_cons_self a t)
      | some b =>
        by_cases hb : b.id < a.id
        · simp only [hb, if_pos] at h'
          simp only [Option.some.injEq] at h'
          exact Or.inr (h' ▸ List.mem_cons_self a t)
        · simp only [hb, if_neg, not_false_iff] at h'
          exact Or.inl h'
    · exact Or.inr (List.mem_cons_of_mem a h')

/-- Deleting the row with the id of the only matching due-payment entry leaves
no matching entry behind. -/
lemma cuotaMovs_after_delete (dbA dbB : DB) (cid : Nat) (m : Movimiento)
    (hmv : ∀ x ∈ cuotaMovs dbA cid, x = m)
    (emo : dbB.movimientos = dbA.movimientos.filter (fun x => !(x.id == m.id))) :
    cuotaMovs dbB cid = [] := by
  unfold cuotaMovs at hmv ⊢
  rw [emo, List.filter_eq_nil_iff]
  intro a ha hpa
  obtain ⟨ham, hid⟩ := List.mem_filter.mp ha
  have haeq : a = m := hmv a (List.mem_filter.mpr ⟨ham, hpa⟩)
  rw [haeq] at hid
  simp at hid

/-- After filtering a due's attachments away, no later filtering brings one back. -/
lemma comps_filter_nil (l : List Comprobante) (i : Nat) (q : Comprobante → Bool) :
    ((l.filter (fun x => !(x.cuota_id == some i))).filter q).filter
      (fun x => x.cuota_id == some i) = [] := by
  rw [List.filter_eq_nil_iff]
  intro a ha
  have h1 := (List.mem_filter.mp (List.mem_filter.mp ha).1).2
  simp only [Bool.not_eq_true'] at h1
  simp [h1]

/-- Claim C2: For every existing due carrying no due-payment ledger entry yet (the
state every due is in before payment), `pagar_cuota` followed by
`revertir_pago` restores the due to unpaid with a null payment date, leaves no
ledger entry with the due-payment origin referencing the due, and leaves no
attachment referencing the due — whatever receipt was uploaded with the
payment. -/
theorem pagar_revertir_roundtrip (db : DB) (cid : Nat) (hoy : Fecha) (r : Option String)
    (c : Cuota) (hc : findCuota db cid = some c) (hnomov : cuotaMovs db cid = []) :
    ∃ db1 db2, pagarCuota db cid hoy r = some db1 ∧ revertirPago db1 cid = some db2 ∧
      findCuota db2 cid = some { c with pagada := false, fecha_pago := none } ∧
      cuotaMovs db2 cid = [] ∧
      db2.comprobantes.filter (fun x => x.cuota_id == some cid) = [] := by
  have hcid : c.id = cid := findCuota_id hc
  subst hcid
  obtain ⟨db1, h1, e1cu, e1mo⟩ := pagar_shape db c.id hoy r c hc
  have hc1 : findCuota db1 c.id = some { c with pagada := true, fecha_pago := some hoy } := by
    simp only [findCuota, e1cu]
    exact findCuota_map_if db.cuotas c.id c
      (fun x => { x with pagada := true, fecha_pago := some hoy }) (fun _ => rfl) hc
  have hmv1 : cuotaMovs db1 c.id =
      [{ id := db.nextMovId, tipo := "ingreso", categoria := some "Cuotas socios",
         origen := "cuota", socio_id := some c.socio_id, cuota_id := some c.id,
         monto := c.monto, fecha := hoy,
         descripcion := some ("Cuota " ++ c.periodo ++ " socio #" ++ toString c.socio_id) }] := by
    unfold cuotaMovs at hnomov ⊢
    rw [e1mo, List.filter_append, hnomov]
    simp
  have hfb : firstByIdDesc (cuotaMovs db1 c.id) = some
      { id := db.nextMovId, tipo := "ingreso", categoria := some "Cuotas socios",
        origen := "cuota", socio_id := some c.socio_id, cuota_id := some c.id,
        monto := c.monto, fecha := hoy,
        descripcion := some ("Cuota " ++ c.periodo ++ " socio #" ++ toString c.socio_id) } := by
    rw [hmv1]
    rfl
  obtain ⟨db2, h2, e2cu, e2mo, e2co⟩ := revertir_shape_some db1 c.id _ _ hc1 hfb
  refine ⟨db1, db2, h1, h2, ?_, ?_, ?_⟩
  · simp only [findCuota, e2cu]
    exact findCuota_map_if db1.cuotas c.id { c with pagada := true, fecha_pago := some hoy }
      (fun x => { x with pagada := false, fecha_pago := none }) (fun _ => rfl) hc1
  · exact cuotaMovs_after_delete db1 db2 c.id _ (by rw [hmv1]; simp) e2mo
  · rw [e2co]
    exact comps_filter_nil db1.comprobantes c.id _

/-- Witness for claim C2: paying and reversing Ana's March due with a pdf receipt. -/
theorem pagar_revertir_roundtrip_witness :
    findCuota dbBase 1 = some cuotaMarzo ∧
    cuotaMovs dbBase 1 = [] ∧
    (∃ db1 db2, pagarCuota dbBase 1 ⟨2024, 3, 5⟩ (some "recibo.pdf") = some db1 ∧
      revertirPago db1 1 = some db2 ∧
      findCuota db2 1 = some { cuotaMarzo with pagada := false, fecha_pago := none } ∧
      cuotaMovs db2 1 = [] ∧
      db2.comprobantes.filter (fun x => x.cuota_id == some 1) = []) :=
  ⟨by decide, by decide,
   pagar_revertir_roundtrip dbBase 1 ⟨2024, 3, 5⟩ (some "recibo.pdf") cuotaMarzo
     (by decide) (by decide)⟩

/-- Resetting a due's flags a second time changes nothing. -/
lemma map_reset_reset (l : List Cuota) (i : Nat) :
    ((l.map (fun x => if x.id == i then { x with pagada := false, fecha_pago := none } else x)).map
      (fun x => if x.id == i then { x with pagada := false, fecha_pago := none } else x))
      = l.map (fun x => if x.id == i then { x with pagada := false, fecha_pago := none } else x) := by
  rw [List.map_map]
  apply List.map_congr_left
  intro a _
  by_cases h : a.id == i <;> simp [Function.comp, h]

/-- Claim C10, amended: `revertir_pago` is total on existing dues — it succeeds
even when the due is unpaid, has no attachment and no matching ledger entry —
and always leaves the due with paid flag false and payment date null. It is
idempotent whenever at most one due-payment ledger entry references the due
(in particular along the normal lifecycle); with several such entries each
invocation deletes one more, so it is not idempotent in general. -/
theorem revertir_total_flags_idem (db : DB) (cid : Nat) (c : Cuota)
    (hc : findCuota db cid = some c) :
    ∃ db2, revertirPago db cid = some db2 ∧
      findCuota db2 cid = some { c with pagada := false, fecha_pago := none } ∧
      ((cuotaMovs db cid).length ≤ 1 → revertirPago db2 cid = some db2) := by
  have hcid := findCuota_id hc
  subst hcid
  cases hfb : firstByIdDesc (cuotaMovs db c.id) with
  | none =>
    obtain ⟨db2, h2, e2cu, e2mo, e2co⟩ := revertir_shape_none db c.id c hc hfb
    have hc2 : findCuota db2 c.id = some { c with pagada := false, fecha_pago := none } := by
      simp only [findCuota, e2cu]
      exact findCuota_map_if db.cuotas c.id c
        (fun x => { x with pagada := false, fecha_pago := none }) (fun _ => rfl) hc
    refine ⟨db2, h2, hc2, fun _ => ?_⟩
    have hfb2 : firstByIdDesc
        (cuotaMovs db2 ({ c with pagada := false, fecha_pago := none } : Cuota).id) = none := by
      show firstByIdDesc (cuotaMovs db2 c.id) = none
      unfold cuotaMovs
      rw [e2mo]
      exact hfb
    rw [revertir_unfold_none db2 c.id { c with pagada := false, fecha_pago := none } hc2 hfb2]
    have hcu : (db2.cuotas.map (fun x =>
        if x.id == ({ c with pagada := false, fecha_pago := none } : Cuota).id then
          { x with pagada := false, fecha_pago := none } else x)) = db2.cuotas := by
      rw [e2cu]
      exact map_reset_reset db.cuotas c.id
    have hco : (db2.comprobantes.filter (fun x =>
        !(x.cuota_id == some ({ c with pagada := false, fecha_pago := none } : Cuota).id)))
        = db2.comprobantes := by
      rw [List.filter_eq_self]
      intro a ha
      rw [e2co] at ha
      exact (List.mem_filter.mp ha).2
    rw [hcu, hco]
  | some m =>
    obtain ⟨db2, h2, e2cu, e2mo, e2co⟩ := revertir_shape_some db c.id c m hc hfb
    have hc2 : findCuota db2 c.id = some { c with pagada := false, fecha_pago := none } := by
      simp only [findCuota, e2cu]
      exact findCuota_map_if db.cuotas c.id c
        (fun x => { x with pagada := false, fecha_pago := none }) (fun _ => rfl) hc
    refine ⟨db2, h2, hc2, fun hlen => ?_⟩
    have hmem : m ∈ cuotaMovs db c.id := firstByIdDesc_mem _ _ hfb
    have hall : ∀ x ∈ cuotaMovs db c.id, x = m := by
      intro x hx
      cases hl : cuotaMovs db c.id with
      | nil =>
        rw [hl] at hx
        cases hx
      | cons a t =>
        rw [hl] at hx hmem hlen
        have ht : t = [] := by
          cases t with
          | nil => rfl
          | cons b u => simp at hlen
        subst ht
        simp only [List.mem_singleton] at hx hmem
        exact hx.trans hmem.symm
    have hmv2 : cuotaMovs db2 c.id = [] := cuotaMovs_after_delete db db2 c.id m hall e2mo
    have hfb2 : firstByIdDesc
        (cuotaMovs db2 ({ c with pagada := false, fecha_pago := none } : Cuota).id) = none := by
      show firstByIdDesc (cuotaMovs db2 c.id) = none
      rw [hmv2]
      rfl
    rw [revertir_unfold_none db2 c.id { c with pagada := false, fecha_pago := none } hc2 hfb2]
    have hcu : (db2.cuotas.map (fun x =>
        if x.id == ({ c with pagada := false, fecha_pago := none } : Cuota).id then
          { x with pagada := false, fecha_pago := none } else x)) = db2.cuotas := by
      rw [e2cu]
      exact map_reset_reset db.cuotas c.id
    have hco : (db2.comprobantes.filter (fun x =>
        !(x.cuota_id == some ({ c with pagada := false, fecha_pago := none } : Cuota).id)))
        = db2.comprobantes := by
      rw [List.filter_eq_self]
      intro a ha
      rw [e2co] at ha
      exact (List.mem_filter.mp (List.mem_filter.mp ha).1).2
    rw [hcu, hco]

/-- Witness for claim C10, amended on the paid fixture, which carries exactly one
due-payment ledger entry. -/
theorem revertir_total_flags_idem_witness :
    findCuota dbPagada 1 = some cuotaMarzoPagada ∧
    (∃ db2, revertirPago dbPagada 1 = some db2 ∧
      findCuota db2 1 = some { cuotaMarzoPagada with pagada := false, fecha_pago := none } ∧
      ((cuotaMovs dbPagada 1).length ≤ 1 → revertirPago db2 1 = some db2)) :=
  ⟨by decide, revertir_total_flags_idem dbPagada 1 cuotaMarzoPagada (by decide)⟩

/-- Claim C10, counterexample: On an existing due referenced by two due-payment
ledger entries (reachable by paying twice, as [C1] shows), reversing twice is
not the same as reversing once: each invocation deletes one more entry. -/
theorem revertir_idem_counterexample :
    (revertirPago dbDoble 1).bind (fun d => revertirPago d 1) ≠ revertirPago dbDoble 1 := by
  decide

/-- A period that fails parsing or date construction aborts the request with
no committed state. -/
lemma cuotasPost_fail (db : DB) (p : String)
    (h : periodoParse p = none ∨
      ∃ y m, periodoParse p = some (y, m) ∧ validYM y m = false) :
    cuotasPost db p = none := by
  unfold cuotasPost
  rcases h with h | ⟨y, m, h, hv⟩
  · rw [h]
  · rw [h]
    simp [hv]

/-- Claim C9, amended: `cuotas` POST raises no ValidationError. For an ASCII
period string (the domain on which the embedded `int()` parser is exact —
Unicode digit and whitespace forms are not modelled), one that does not parse
as Python `int()` parses — optional surrounding whitespace, an optional `'+'`,
digits optionally grouped by single underscores — into exactly two
`'-'`-separated integers denoting a valid year-month makes the request die on
an uncaught `ValueError` before any row is added (modelled as `none`, no
committed state); periods that do so parse, such as `'2024-3'` or
`'2024-1_2'`, are not otherwise checked against the `YYYY-MM` form. -/
theorem cuotas_generar_rechazo (db : DB) (p : String)
    (_hascii : ∀ c ∈ p.data, c.toNat < 128)
    (h : periodoParse p = none ∨
      ∃ y m, periodoParse p = some (y, m) ∧ validYM y m = false) :
    cuotasPost db p = none :=
  cuotasPost_fail db p h

/-- Witness for claim C9, amended: month 13 is rejected with no state produced. -/
theorem cuotas_generar_rechazo_witness :
    (∀ c ∈ ("2024-13" : String).data, c.toNat < 128) ∧
    (periodoParse "2024-13" = none ∨
      ∃ y m, periodoParse "2024-13" = some (y, m) ∧ validYM y m = false) ∧
    cuotasPost dbBase "2024-13" = none :=
  ⟨by decide, Or.inr ⟨2024, 13, by decide, by decide⟩,
   cuotas_generar_rechazo dbBase "2024-13" (by decide)
     (Or.inr ⟨2024, 13, by decide, by decide⟩)⟩

/-- Claim C9, counterexample: neither `"2024-3"` nor `"2024-1_2"` is of the
`YYYY-MM` form, yet the generator accepts both — `int()` reads `'1_2'` as 12
through PEP 515 underscore grouping — and each creates a Due row (stored under
the malformed period string) instead of failing: malformed periods are not all
rejected, and none is rejected via a ValidationError. -/
theorem cuotas_generar_rechazo_counterexample :
    (specCanonicalPeriodo "2024-3" = false ∧
      (cuotasPost dbBase "2024-3").map (fun r => (r.1, r.2.cuotas.length)) = some (1, 2)) ∧
    (specCanonicalPeriodo "2024-1_2" = false ∧
      (cuotasPost dbBase "2024-1_2").map (fun r => (r.1, r.2.cuotas.length)) = some (1, 2)) := by
  decide

/-- An existing due's row set only grows during each generation step. -/
lemma generaPaso_mono (p : String) (venc : Fecha) (acc : Nat × DB) (s : Socio) :
    ∃ t, (generaPaso p venc acc s).2.cuotas = acc.2.cuotas ++ t := by
  unfold generaPaso
  by_cases h : cuotaExiste acc.2.cuotas s.id p
  · exact ⟨[], by simp [h]⟩
  · refine ⟨[(⟨acc.2.nextCuotaId, s.id, p, s.cuota_mensual, venc, false, none⟩ : Cuota)], ?_⟩
    simp [h]

/-- The generation loop only appends due rows. -/
lemma generaFold_mono (p : String) (venc : Fecha) (L : List Socio) :
    ∀ acc : Nat × DB, ∃ t, (L.foldl (generaPaso p venc) acc).2.cuotas = acc.2.cuotas ++ t := by
  induction L with
  | nil => exact fun acc => ⟨[], by simp⟩
  | cons s L ih =>
    intro acc
    obtain ⟨t1, h1⟩ := generaPaso_mono p venc acc s
    obtain ⟨t2, h2⟩ := ih (generaPaso p venc acc s)
    exact ⟨t1 ++ t2, by rw [List.foldl_cons, h2, h1, List.append_assoc]⟩

/-- The existence check is monotone under appending rows. -/
lemma cuotaExiste_mono (l t : List Cuota) (sid : Nat) (p : String)
    (h : cuotaExiste l sid p = true) : cuotaExiste (l ++ t) sid p = true := by
  simp only [cuotaExiste, List.any_append, Bool.or_eq_true]
  exact Or.inl h

/-- The existence check, in terms of row membership. -/
lemma cuotaExiste_iff (l : List Cuota) (sid : Nat) (p : String) :
    cuotaExiste l sid p = true ↔ ∃ c ∈ l, c.socio_id = sid ∧ c.periodo = p := by
  simp [cuotaExiste, List.any_eq_true]

/-- After the generation loop has processed a member, that member has a due
for the period. -/
lemma generaFold_covers (p : String) (venc : Fecha) (L : List Socio) :
    ∀ (acc : Nat × DB) (s : Socio), s ∈ L →
      cuotaExiste (L.foldl (generaPaso p venc) acc).2.cuotas s.id p = true := by
  induction L with
  | nil =>
    intro acc s hs
    cases hs
  | cons a L ih =>
    intro acc s hs
    rcases List.mem_cons.mp hs with rfl | hs
    · obtain ⟨t, ht⟩ := generaFold_mono p venc L (generaPaso p venc acc s)
      rw [List.foldl_cons, ht]
      apply cuotaExiste_mono
      unfold generaPaso
      cases hx : cuotaExiste acc.2.cuotas s.id p with
      | true =>
        simpa using hx
      | false =>
        simp [cuotaExiste, List.any_append]
    · rw [List.foldl_cons]
      exact ih _ s hs

/-- When every member in the list is already covered, the generation loop
creates nothing and leaves the state untouched. -/
lemma generaFold_noop (p : String) (venc : Fecha) (L : List Socio) (acc : Nat × DB)
    (h : ∀ s ∈ L, cuotaExiste acc.2.cuotas s.id p = true) :
    L.foldl (generaPaso p venc) acc = acc := by
  induction L with
  | nil => rfl
  | cons a L ih =>
    have hstep : generaPaso p venc acc a = acc := by
      unfold generaPaso
      simp [h a (List.mem_cons_self a L)]
    rw [List.foldl_cons, hstep]
    exact ih (fun s hs => h s (List.mem_cons_of_mem a hs))

/-- The generation loop touches only the dues table and its autoincrement
counter. -/
lemma generaFold_fields (p : String) (venc : Fecha) (L : List Socio) :
    ∀ acc : Nat × DB,
      (L.foldl (generaPaso p venc) acc).2.socios = acc.2.socios ∧
      (L.foldl (generaPaso p venc) acc).2.movimientos = acc.2.movimientos ∧
      (L.foldl (generaPaso p venc) acc).2.comprobantes = acc.2.comprobantes ∧
      (L.foldl (generaPaso p venc) acc).2.nextMovId = acc.2.nextMovId ∧
      (L.foldl (generaPaso p venc) acc).2.nextCompId = acc.2.nextCompId := by
  induction L with
  | nil => exact fun acc => ⟨rfl, rfl, rfl, rfl, rfl⟩
  | cons a L ih =>
    intro acc
    have hstep :
        (generaPaso p venc acc a).2.socios = acc.2.socios ∧
        (generaPaso p venc acc a).2.movimientos = acc.2.movimientos ∧
        (generaPaso p venc acc a).2.comprobantes = acc.2.comprobantes ∧
        (generaPaso p venc acc a).2.nextMovId = acc.2.nextMovId ∧
        (generaPaso p venc acc a).2.nextCompId = acc.2.nextCompId := by
      unfold generaPaso
      by_cases h : cuotaExiste acc.2.cuotas a.id p <;> simp [h]
    obtain ⟨i1, i2, i3, i4, i5⟩ := ih (generaPaso p venc acc a)
    obtain ⟨s1, s2, s3, s4, s5⟩ := hstep
    rw [List.foldl_cons]
    exact ⟨i1.trans s1, i2.trans s2, i3.trans s3, i4.trans s4, i5.trans s5⟩

/-- Full characterisation of the rows created by the generation loop: the dues
table is extended by exactly the dues of the processed members that were not
yet covered, each carrying the member's id and current amount, the period, the
computed due date, and the unpaid initial state; the returned counter counts
them. -/
lemma generaFold_spec (p : String) (venc : Fecha) (L : List Socio) :
    ∀ (k : Nat) (d : DB),
      ∃ new, (L.foldl (generaPaso p venc) (k, d)).2.cuotas = d.cuotas ++ new ∧
        (L.foldl (generaPaso p venc) (k, d)).1 = k + new.length ∧
        ∀ c ∈ new, c.periodo = p ∧ c.pagada = false ∧ c.fecha_pago = none ∧
          c.fecha_venc = venc ∧
          ∃ s ∈ L, cuotaExiste d.cuotas s.id p = false ∧
            c.socio_id = s.id ∧ c.monto = s.cuota_mensual := by
  induction L with
  | nil =>
    intro k d
    exact ⟨[], by simp, by simp, by simp⟩
  | cons a L ih =>
    intro k d
    by_cases h : cuotaExiste d.cuotas a.id p
    · have hstep : generaPaso p venc (k, d) a = (k, d) := by
        unfold generaPaso
        simp [h]
      obtain ⟨new, h1, h2, h3⟩ := ih k d
      rw [List.foldl_cons, hstep]
      refine ⟨new, h1, h2, fun c hcaux => ?_⟩
      obtain ⟨e1, e2, e3, e4, s, hs, hsp⟩ := h3 c hcaux
      exact ⟨e1, e2, e3, e4, s, List.mem_cons_of_mem a hs, hsp⟩
    · have hx : cuotaExiste d.cuotas a.id p = false := by
        cases hc : cuotaExiste d.cuotas a.id p
        · rfl
        · exact absurd hc h
      have hstep : generaPaso p venc (k, d) a =
          (k + 1, { d with
            cuotas := d.cuotas ++ [(⟨d.nextCuotaId, a.id, p, a.cuota_mensual, venc, false, none⟩ : Cuota)]
            nextCuotaId := d.nextCuotaId + 1 }) := by
        unfold generaPaso
        simp [hx]
      obtain ⟨new, h1, h2, h3⟩ := ih (k + 1)
        { d with
          cuotas := d.cuotas ++ [(⟨d.nextCuotaId, a.id, p, a.cuota_mensual, venc, false, none⟩ : Cuota)]
          nextCuotaId := d.nextCuotaId + 1 }
      rw [List.foldl_cons, hstep]
      refine ⟨(⟨d.nextCuotaId, a.id, p, a.cuota_mensual, venc, false, none⟩ : Cuota) :: new, ?_, ?_, ?_⟩
      · rw [h1]
        simp
      · rw [h2]
        simp [Nat.add_comm, Nat.add_assoc, Nat.add_left_comm]
      · intro c hcmem
        rcases List.mem_cons.mp hcmem with rfl | hcmem
        · exact ⟨rfl, rfl, rfl, rfl, a, List.mem_cons_self a L, hx, rfl, rfl⟩
        · obtain ⟨e1, e2, e3, e4, s, hs, hse, hsp⟩ := h3 c hcmem
          refine ⟨e1, e2, e3, e4, s, List.mem_cons_of_mem a hs, ?_, hsp⟩
          cases hc0 : cuotaExiste d.cuotas s.id p
          · rfl
          · have := cuotaExiste_mono d.cuotas
              [(⟨d.nextCuotaId, a.id, p, a.cuota_mensual, venc, false, none⟩ : Cuota)] s.id p hc0
            rw [this] at hse
            cases hse

/-- Embeds `cuotas` POST on a well-formed period, as one equation down to the
generation loop. -/
lemma cuotasPost_unfold (db : DB) (p : String) (y m : Nat)
    (hp : periodoParse p = some (y, m)) (hv : validYM y m = true) :
    cuotasPost db p = some
      ((db.socios.filter (fun s => s.activo && decide (0 < s.cuota_mensual))).foldl
        (generaPaso p ⟨y, m, min 10 (ultimo_dia_mes y m)⟩) (0, db)) := by
  unfold cuotasPost
  rw [hp]
  simp [hv]

/-- Claim C4: Generation is idempotent: once `generate(P)` has committed, running
it again for the same period creates zero additional dues and returns the very
same state — the set of Due rows is unchanged. -/
theorem cuotas_generar_idempotente (db : DB) (p : String) (n1 : Nat) (db1 : DB)
    (h1 : cuotasPost db p = some (n1, db1)) :
    cuotasPost db1 p = some (0, db1) := by
  cases hp : periodoParse p with
  | none =>
    rw [cuotasPost_fail db p (Or.inl hp)] at h1
    cases h1
  | some ym =>
    obtain ⟨y, m⟩ := ym
    cases hv : validYM y m with
    | false =>
      rw [cuotasPost_fail db p (Or.inr ⟨y, m, hp, hv⟩)] at h1
      cases h1
    | true =>
      rw [cuotasPost_unfold db p y m hp hv] at h1
      simp only [Option.some.injEq] at h1
      obtain ⟨-, hdb1⟩ := Prod.ext_iff.mp h1
      subst hdb1
      rw [cuotasPost_unfold _ p y m hp hv]
      have hsoc : ((db.socios.filter (fun s => s.activo && decide (0 < s.cuota_mensual))).foldl
          (generaPaso p ⟨y, m, min 10 (ultimo_dia_mes y m)⟩) (0, db)).2.socios = db.socios :=
        (generaFold_fields p ⟨y, m, min 10 (ultimo_dia_mes y m)⟩
          (db.socios.filter (fun s => s.activo && decide (0 < s.cuota_mensual))) (0, db)).1
      rw [hsoc]
      have hcov : ∀ s ∈ db.socios.filter (fun s => s.activo && decide (0 < s.cuota_mensual)),
          cuotaExiste ((db.socios.filter (fun s => s.activo && decide (0 < s.cuota_mensual))).foldl
            (generaPaso p ⟨y, m, min 10 (ultimo_dia_mes y m)⟩) (0, db)).2.cuotas s.id p = true :=
        fun s hs => generaFold_covers p ⟨y, m, min 10 (ultimo_dia_mes y m)⟩ _ (0, db) s hs
      exact congrArg some (generaFold_noop p ⟨y, m, min 10 (ultimo_dia_mes y m)⟩
        (db.socios.filter (fun s => s.activo && decide (0 < s.cuota_mensual)))
        (0, ((db.socios.filter (fun s => s.activo && decide (0 < s.cuota_mensual))).foldl
          (generaPaso p ⟨y, m, min 10 (ultimo_dia_mes y m)⟩) (0, db)).2) hcov)

/-- Witness for claim C4: generating 2024-04 twice from the fixture. -/
theorem cuotas_generar_idempotente_witness :
    cuotasPost dbBase "2024-04" = some (1, dbGen) ∧
    cuotasPost dbGen "2024-04" = some (0, dbGen) :=
  ⟨by decide, cuotas_generar_idempotente dbBase "2024-04" 1 dbGen (by decide)⟩

/-- Claim C5: For a well-formed period, generation creates a due exactly for each
member that is active, has a strictly positive monthly amount and is not yet
covered for the period — never for inactive or zero-amount members — each new
due carrying the member's id, the member's current monthly amount, the period,
due date `min(10, last day)` of the month, and the unpaid initial state; the
returned count is the number of dues actually created, and with zero eligible
members the call returns 0 and leaves the state unchanged, without error. -/
theorem cuotas_generar_caracterizacion (db : DB) (p : String) (y m : Nat)
    (hp : periodoParse p = some (y, m)) (hv : validYM y m = true) :
    ∃ n db1 new, cuotasPost db p = some (n, db1) ∧
      db1.cuotas = db.cuotas ++ new ∧
      n = new.length ∧
      (∀ c ∈ new, c.periodo = p ∧ c.pagada = false ∧ c.fecha_pago = none ∧
        c.fecha_venc = ⟨y, m, min 10 (ultimo_dia_mes y m)⟩ ∧
        ∃ s ∈ db.socios, s.activo = true ∧ 0 < s.cuota_mensual ∧
          cuotaExiste db.cuotas s.id p = false ∧
          c.socio_id = s.id ∧ c.monto = s.cuota_mensual) ∧
      (∀ s ∈ db.socios, s.activo = true → 0 < s.cuota_mensual →
        cuotaExiste db.cuotas s.id p = false →
        ∃ c ∈ db1.cuotas, c.socio_id = s.id ∧ c.periodo = p) ∧
      ((∀ s ∈ db.socios, ¬(s.activo = true ∧ 0 < s.cuota_mensual)) →
        n = 0 ∧ db1 = db) := by
  have hu := cuotasPost_unfold db p y m hp hv
  obtain ⟨new, e1, e2, e3⟩ := generaFold_spec p ⟨y, m, min 10 (ultimo_dia_mes y m)⟩
    (db.socios.filter (fun s => s.activo && decide (0 < s.cuota_mensual))) 0 db
  refine ⟨_, _, new, hu, e1, by simpa using e2, ?_, ?_, ?_⟩
  · intro c hcmem
    obtain ⟨p1, p2, p3, p4, s, hs, hsx, hsid, hsm⟩ := e3 c hcmem
    obtain ⟨hsmem, hsb⟩ := List.mem_filter.mp hs
    simp only [Bool.and_eq_true, decide_eq_true_eq] at hsb
    exact ⟨p1, p2, p3, p4, s, hsmem, hsb.1, hsb.2, hsx, hsid, hsm⟩
  · intro s hsmem hsact hspos hsun
    have hs : s ∈ db.socios.filter (fun s => s.activo && decide (0 < s.cuota_mensual)) :=
      List.mem_filter.mpr ⟨hsmem, by simp [hsact, hspos]⟩
    have hcov := generaFold_covers p ⟨y, m, min 10 (ultimo_dia_mes y m)⟩ _ (0, db) s hs
    exact (cuotaExiste_iff _ _ _).mp hcov
  · intro hempty
    have hact : db.socios.filter (fun s => s.activo && decide (0 < s.cuota_mensual)) = [] := by
      rw [List.filter_eq_nil_iff]
      intro s hsmem
      simp only [Bool.and_eq_true, decide_eq_true_eq]
      intro hcon
      exact hempty s hsmem hcon
    rw [hact]
    exact ⟨rfl, rfl⟩

/-- Witness for claim C5 at the concrete fixture and period 2024-04. -/
theorem cuotas_generar_caracterizacion_witness :
    periodoParse "2024-04" = some (2024, 4) ∧ validYM 2024 4 = true ∧
    (∃ n db1 new, cuotasPost dbBase "2024-04" = some (n, db1) ∧
      db1.cuotas = dbBase.cuotas ++ new ∧
      n = new.length ∧
      (∀ c ∈ new, c.periodo = "2024-04" ∧ c.pagada = false ∧ c.fecha_pago = none ∧
        c.fecha_venc = ⟨2024, 4, min 10 (ultimo_dia_mes 2024 4)⟩ ∧
        ∃ s ∈ dbBase.socios, s.activo = true ∧ 0 < s.cuota_mensual ∧
          cuotaExiste dbBase.cuotas s.id "2024-04" = false ∧
          c.socio_id = s.id ∧ c.monto = s.cuota_mensual) ∧
      (∀ s ∈ dbBase.socios, s.activo = true → 0 < s.cuota_mensual →
        cuotaExiste dbBase.cuotas s.id "2024-04" = false →
        ∃ c ∈ db1.cuotas, c.socio_id = s.id ∧ c.periodo = "2024-04") ∧
      ((∀ s ∈ dbBase.socios, ¬(s.activo = true ∧ 0 < s.cuota_mensual)) →
        n = 0 ∧ db1 = dbBase)) :=
  ⟨by decide, by decide,
   cuotas_generar_caracterizacion dbBase "2024-04" 2024 4 (by decide) (by decide)⟩

/-- Claim C6: `morosidad`'s per-member view: its rows are sorted ascending by
member display name; every row belongs to a member and carries the sum and
count of exactly that member's unpaid dues with due date strictly before the
reference date (a positive count); every member owning such a due is
represented; and the output only depends on the unpaid overdue dues — dues
with paid flag true or due date not before the reference date never
contribute. -/
theorem morosidad_deudores_espec (db : DB) (hoy : Fecha) :
    List.Pairwise nombreLe (deudores db hoy) ∧
    (∀ r ∈ deudores db hoy, ∃ s ∈ db.socios,
      r.socio_id = s.id ∧ r.socio_nombre = s.nombre ∧
      r.deuda_total = (((overdueCuotas db hoy).filter (fun c => c.socio_id == s.id)).map
        (fun c => c.monto)).sum ∧
      r.cuotas_vencidas = ((overdueCuotas db hoy).filter (fun c => c.socio_id == s.id)).length ∧
      0 < r.cuotas_vencidas) ∧
    (∀ s ∈ db.socios, (overdueCuotas db hoy).filter (fun c => c.socio_id == s.id) ≠ [] →
      ∃ r ∈ deudores db hoy, r.socio_id = s.id ∧ r.socio_nombre = s.nombre) ∧
    deudores
      { db with cuotas := db.cuotas.filter (fun c => !c.pagada && c.fecha_venc.before hoy) } hoy
      = deudores db hoy := by
  refine ⟨?_, ?_, ?_, ?_⟩
  · exact List.sorted_insertionSort nombreLe (deudorRows db hoy)
  · intro r hr
    have hr' : r ∈ deudorRows db hoy := (List.mem_insertionSort nombreLe).mp hr
    obtain ⟨s, hs, hrow⟩ := List.mem_filterMap.mp hr'
    simp only at hrow
    by_cases hcs : ((overdueCuotas db hoy).filter (fun c => c.socio_id == s.id)).isEmpty
    · rw [if_pos hcs] at hrow
      cases hrow
    · rw [if_neg hcs] at hrow
      obtain rfl := (Option.some.injEq _ _).mp hrow
      refine ⟨s, hs, rfl, rfl, rfl, rfl, ?_⟩
      have hne : (overdueCuotas db hoy).filter (fun c => c.socio_id == s.id) ≠ [] := by
        intro hnil
        rw [hnil] at hcs
        exact hcs rfl
      exact List.length_pos.mpr hne
  · intro s hs hne
    have hcs : ¬((overdueCuotas db hoy).filter (fun c => c.socio_id == s.id)).isEmpty := by
      intro hemp
      exact hne (List.isEmpty_iff.mp hemp)
    refine ⟨(⟨s.id, s.nombre,
        (((overdueCuotas db hoy).filter (fun c => c.socio_id == s.id)).map
          (fun c => c.monto)).sum,
        ((overdueCuotas db hoy).filter (fun c => c.socio_id == s.id)).length⟩ : DeudorRow),
      ?_, rfl, rfl⟩
    apply (List.mem_insertionSort nombreLe).mpr
    apply List.mem_filterMap.mpr
    refine ⟨s, hs, ?_⟩
    simp only
    rw [if_neg hcs]
  · have hod : overdueCuotas
        { db with cuotas := db.cuotas.filter (fun c => !c.pagada && c.fecha_venc.before hoy) } hoy
        = overdueCuotas db hoy := by
      unfold overdueCuotas
      exact List.filter_eq_self.mpr (fun a ha => (List.mem_filter.mp ha).2)
    unfold deudores
    congr 1
    unfold deudorRows
    simp only [hod]

/-- Witness for claim C6: Ana appears in the per-member view of the fixture. -/
theorem morosidad_deudores_espec_witness :
    (overdueCuotas dbMora ⟨2024, 3, 1⟩).filter (fun c => c.socio_id == anaSocio.id) ≠ [] ∧
    (∃ r ∈ deudores dbMora ⟨2024, 3, 1⟩,
      r.socio_id = anaSocio.id ∧ r.socio_nombre = anaSocio.nombre) :=
  ⟨by decide,
   (morosidad_deudores_espec dbMora ⟨2024, 3, 1⟩).2.2.1 anaSocio (by decide) (by decide)⟩

/-- Summing `if b == k then x else 0` over a duplicate-free key list
containing `b` yields `x`. -/
lemma sum_ite_unique {β : Type} [BEq β] [LawfulBEq β] (keys : List β) (b : β) (x : ℚ)
    (hnd : keys.Nodup) (hb : b ∈ keys) :
    (keys.map (fun k => if b == k then x else 0)).sum = x := by
  induction keys with
  | nil => cases hb
  | cons k ks ih =>
    rcases List.mem_cons.mp hb with rfl | hbk
    · rw [List.map_cons, List.sum_cons, if_pos (by simp)]
      have hzero : (ks.map (fun k' => if b == k' then x else (0 : ℚ))).sum = 0 := by
        apply List.sum_eq_zero
        intro y hy
        obtain ⟨k', hk', rfl⟩ := List.mem_map.mp hy
        have hbne : ¬(b == k') = true := by
          intro hbeq
          exact (List.nodup_cons.mp hnd).1 (eq_of_beq hbeq ▸ hk')
        rw [if_neg hbne]
      rw [hzero, add_zero]
    · have hne : ¬(b == k) = true := by
        intro hbeq
        exact (List.nodup_cons.mp hnd).1 (eq_of_beq hbeq ▸ hbk)
      rw [List.map_cons, List.sum_cons, if_neg hne, zero_add]
      exact ih (List.nodup_cons.mp hnd).2 hbk
/-- Splitting a sum over rows into per-key bucket sums: when the keys are
duplicate-free and cover every row, grouping preserves the total. -/
lemma sum_buckets {α β : Type} [BEq β] [LawfulBEq β] (f : α → β) (g : α → ℚ)
    (keys : List β) (hnd : keys.Nodup) :
    ∀ l : List α, (∀ a ∈ l, f a ∈ keys) →
      (keys.map (fun k => ((l.filter (fun a => f a == k)).map g).sum)).sum = (l.map g).sum := by
  intro l
  induction l with
  | nil =>
    intro _
    simp only [List.filter_nil, List.map_nil, List.sum_nil]
    apply List.sum_eq_zero
    intro y hy
    obtain ⟨k, _, rfl⟩ := List.mem_map.mp hy
    rfl
  | cons a l ih =>
    intro hcov
    have hstep : ∀ k : β, ((List.filter (fun x => f x == k) (a :: l)).map g).sum
        = (if f a == k then g a else 0) + ((l.filter (fun x => f x == k)).map g).sum := by
      intro k
      by_cases h : (f a == k) = true
      · simp [List.filter_cons, h]
      · simp [List.filter_cons, h]
    calc (keys.map (fun k => ((List.filter (fun x => f x == k) (a :: l)).map g).sum)).sum
        = (keys.map (fun k => (if f a == k then g a else 0)
            + ((l.filter (fun x => f x == k)).map g).sum)).sum :=
          congrArg List.sum (List.map_congr_left (fun k _ => hstep k))
      _ = (keys.map (fun k => if f a == k then g a else 0)).sum
            + (keys.map (fun k => ((l.filter (fun x => f x == k)).map g).sum)).sum :=
          List.sum_map_add
      _ = g a + (l.map g).sum := by
          rw [sum_ite_unique keys (f a) (g a) hnd (hcov a (List.mem_cons_self a l)),
            ih (fun x hx => hcov x (List.mem_cons_of_mem a hx))]
      _ = ((a :: l).map g).sum := by rw [List.map_cons, List.sum_cons]

/-- Dropping members with an empty overdue bucket does not change the total:
an empty bucket contributes a zero sum. -/
lemma filterMap_row_sum (od : List Cuota) (L : List Socio) :
    ((L.filterMap (fun s =>
        if (od.filter (fun c => c.socio_id == s.id)).isEmpty then none
        else some ((⟨s.id, s.nombre,
          ((od.filter (fun c => c.socio_id == s.id)).map (fun c => c.monto)).sum,
          (od.filter (fun c => c.socio_id == s.id)).length⟩ : DeudorRow)))).map
      (fun r => r.deuda_total)).sum
    = (L.map (fun s =>
        ((od.filter (fun c => c.socio_id == s.id)).map (fun c => c.monto)).sum)).sum := by
  induction L with
  | nil => rfl
  | cons s L ih =>
    rw [List.filterMap_cons]
    by_cases h : (od.filter (fun c => c.socio_id == s.id)).isEmpty
    · rw [if_pos h]
      have hemp : od.filter (fun c => c.socio_id == s.id) = [] := List.isEmpty_iff.mp h
      rw [List.map_cons, List.sum_cons, hemp]
      simp only [List.map_nil, List.sum_nil, zero_add]
      exact ih
    · rw [if_neg h, List.map_cons, List.sum_cons, List.map_cons, List.sum_cons, ih]

/-- Claim C7: For every reference date, the total owed reported by the per-period
view of `morosidad` equals the total owed reported by its per-member view,
provided the database satisfies its declared constraints: every overdue due
references an existing member (foreign key) and member ids are unique
(primary key). Both views then partition the same set of unpaid overdue dues. -/
theorem morosidad_sumas_coinciden (db : DB) (hoy : Fecha)
    (hfk : ∀ c ∈ overdueCuotas db hoy, ∃ s ∈ db.socios, s.id = c.socio_id)
    (hpk : (db.socios.map (fun s => s.id)).Nodup) :
    ((periodoRows db hoy).map (fun r => r.importe)).sum
      = ((deudores db hoy).map (fun r => r.deuda_total)).sum := by
  have hper : ((periodoRows db hoy).map (fun r => r.importe)).sum
      = ((overdueCuotas db hoy).map (fun c => c.monto)).sum := by
    unfold periodoRows
    rw [List.map_map]
    have hperm := (List.perm_insertionSort claveLe
      ((overdueCuotas db hoy).map (fun c => monthKey c.fecha_venc)).dedup).map
      (fun k => (((overdueCuotas db hoy).filter
        (fun c => monthKey c.fecha_venc == k)).map (fun c => c.monto)).sum)
    have hsorted := hperm.sum_eq
    refine Eq.trans ?_ (Eq.trans hsorted ?_)
    · rfl
    · exact sum_buckets (fun c => monthKey c.fecha_venc) (fun c => c.monto) _
        (List.nodup_dedup _) (overdueCuotas db hoy)
        (fun a ha => List.mem_dedup.mpr
          (List.mem_map.mpr ⟨a, ha, rfl⟩))
  have hdeu : ((deudores db hoy).map (fun r => r.deuda_total)).sum
      = ((overdueCuotas db hoy).map (fun c => c.monto)).sum := by
    have h1 : ((deudores db hoy).map (fun r => r.deuda_total)).sum
        = ((deudorRows db hoy).map (fun r => r.deuda_total)).sum :=
      ((List.perm_insertionSort nombreLe (deudorRows db hoy)).map
        (fun r => r.deuda_total)).sum_eq
    rw [h1]
    have h2 : ((deudorRows db hoy).map (fun r => r.deuda_total)).sum
        = (db.socios.map (fun s => (((overdueCuotas db hoy).filter
            (fun c => c.socio_id == s.id)).map (fun c => c.monto)).sum)).sum :=
      filterMap_row_sum (overdueCuotas db hoy) db.socios
    rw [h2]
    have h3 : (db.socios.map (fun s => (((overdueCuotas db hoy).filter
          (fun c => c.socio_id == s.id)).map (fun c => c.monto)).sum))
        = ((db.socios.map (fun s => s.id)).map (fun i => (((overdueCuotas db hoy).filter
            (fun c => c.socio_id == i)).map (fun c => c.monto)).sum)) := by
      rw [List.map_map]
      rfl
    rw [h3]
    exact sum_buckets (fun c => c.socio_id) (fun c => c.monto)
      (db.socios.map (fun s => s.id)) hpk (overdueCuotas db hoy)
      (fun a ha => by
        obtain ⟨s, hsmem, hsid⟩ := hfk a ha
        exact List.mem_map.mpr ⟨s, hsmem, hsid⟩)
  rw [hper, hdeu]

/-- Witness for claim C7 at the delinquency fixture. -/
theorem morosidad_sumas_coinciden_witness :
    (∀ c ∈ overdueCuotas dbMora ⟨2024, 3, 1⟩, ∃ s ∈ dbMora.socios, s.id = c.socio_id) ∧
    (dbMora.socios.map (fun s => s.id)).Nodup ∧
    ((periodoRows dbMora ⟨2024, 3, 1⟩).map (fun r => r.importe)).sum
      = ((deudores dbMora ⟨2024, 3, 1⟩).map (fun r => r.deuda_total)).sum :=
  ⟨by decide, by decide,
   morosidad_sumas_coinciden dbMora ⟨2024, 3, 1⟩ (by decide) (by decide)⟩

end ACP
